import Mathlib

/-!
Verification of the notebook code in `tutorials/simplicial/`
(`scone_train_bis.ipynb` and the four notebooks concatenated in
`scn2_train.ipynb`: SCN2, SCA/AMPSSCA, CAN and HMPNN) against its
natural-language specification.

The notebooks are linear Python scripts over torch.  We embed, directly
from the source:
  * the control structure of each training loop (which epoch runs a
    training step, which epoch additionally runs a held-out evaluation);
  * the recorded per-epoch mean training losses stored in the cells'
    outputs;
  * the construction of the per-model layer stacks and the shape of each
    forward pass;
  * the module-attribute registration relevant to `model.parameters()`;
  * the NaN-handling tail of the SCN2 / AMPSSCA / CAN forward passes;
  * list-of-rows matrices for the Laplacian shape facts;
  * the SCoNe forward pass over the reals, including the terminal
    row-wise softmax.
-/

namespace SCNN

/- ------------------------------------------------------------------ -/
/- Training-loop schedule (C1).                                        -/
/- ------------------------------------------------------------------ -/

/-- Events of a notebook run.  `load`, `buildMatrices` and `instantiate`
are the three pre-training phases; `trainStep e` is the body of the
training loop at epoch `e`; `evalStep e` is an evaluation of held-out
data performed at epoch `e`. -/
inductive RunEvent : Type
  | load : RunEvent
  | buildMatrices : RunEvent
  | instantiate : RunEvent
  | trainStep : Nat → RunEvent
  | evalStep : Nat → RunEvent
  deriving DecidableEq, Repr

/-- One iteration of the training loop, from the source
(`for epoch in range(1, num_epochs + 1): ... if epoch % test_interval == 0:
<evaluate held-out data>`): the epoch's training step, followed by an
evaluation step exactly when `epoch % test_interval == 0`. -/
def epochEvents (testInterval epoch : Nat) : List RunEvent :=
  [RunEvent.trainStep epoch] ++
    (if epoch % testInterval == 0 then [RunEvent.evalStep epoch] else [])

/-- The event list produced by the training loop for
`num_epochs = numEpochs` and `test_interval = testInterval`. -/
def trainingTrace (numEpochs testInterval : Nat) : List RunEvent :=
  (List.range numEpochs).flatMap (fun i => epochEvents testInterval (i + 1))

/-- The full run of a notebook: load the dataset, build the neighborhood
matrices, instantiate the model, then run the training loop (each
notebook's cells appear in exactly this order in the source). -/
def notebookTrace (numEpochs testInterval : Nat) : List RunEvent :=
  [RunEvent.load, RunEvent.buildMatrices, RunEvent.instantiate] ++
    trainingTrace numEpochs testInterval

/-- `true` on a training event. -/
def RunEvent.isTrain : RunEvent → Bool
  | RunEvent.trainStep _ => true
  | _ => false

/-- `true` on an evaluation event. -/
def RunEvent.isEval : RunEvent → Bool
  | RunEvent.evalStep _ => true
  | _ => false

/-- `true` iff no training event occurs after an evaluation event, i.e.
iff all evaluation happens only once training has completed. -/
def noTrainAfterEval : List RunEvent → Bool
  | [] => true
  | e :: rest =>
      if e.isEval then rest.all (fun x => !x.isTrain) && noTrainAfterEval rest
      else noTrainAfterEval rest

/- ------------------------------------------------------------------ -/
/- Recorded per-epoch mean training losses (C5).                       -/
/- ------------------------------------------------------------------ -/

/-- Mean training losses printed by the recorded SCoNe run
(`scone_train_bis.ipynb`, `num_epochs = 6`). -/
def sconeEpochLosses : List ℚ :=
  [0.7211, 0.7185, 0.7205, 0.7210, 0.7205, 0.7194]

/-- Mean training losses printed by the recorded SCN2 run
(`scn2_train.ipynb`, first notebook, `num_epochs = 8`). -/
def scn2EpochLosses : List ℚ :=
  [307.3329, 271.0158, 211.3648, 133.2150, 86.5624, 78.2548, 77.8108,
   77.7633]

/-- Mean training losses printed by the recorded AMPSSCA run
(`scn2_train.ipynb`, second notebook, `num_epochs = 6`). -/
def ampsscaEpochLosses : List ℚ :=
  [210.15074526998214, 117.16418675570749, 86.16661446671351,
   77.8968961050734, 75.84987897076644, 75.18321903655306]

/-- Mean training losses printed by the recorded CAN run without
attention (`scn2_train.ipynb`, third notebook, `num_epochs = 10`). -/
def canEpochLosses : List ℚ :=
  [89.3527, 81.9469, 81.1082, 80.3476, 79.6493, 79.0137, 78.4377,
   77.9167, 77.4454, 77.0191]

/-- Mean training losses printed by the recorded CAN run with attention
(`scn2_train.ipynb`, third notebook, second loop, `num_epochs = 10`). -/
def canAttEpochLosses : List ℚ :=
  [96.6442, 76.8734, 76.2222, 75.4701, 74.7502, 74.0797, 73.4617,
   72.8948, 72.3760, 71.9013]

/-- Train losses printed by the recorded HMPNN run (`scn2_train.ipynb`,
fourth notebook, 100 epochs). -/
def hmpnnEpochLosses : List ℚ :=
  [2.1079, 2.0234, 1.9800, 1.9504, 1.9194, 1.9241, 1.8917, 1.8710,
   1.8574, 1.8646, 1.8540, 1.8430, 1.8336, 1.8405, 1.8264, 1.8065,
   1.8158, 1.7957, 1.8028, 1.7882, 1.7912, 1.7610, 1.7617, 1.7596,
   1.7391, 1.7315, 1.7365, 1.7184, 1.7085, 1.6815, 1.6673, 1.6846,
   1.6483, 1.6436, 1.6353, 1.6336, 1.5938, 1.5886, 1.5974, 1.5600,
   1.5445, 1.5501, 1.5397, 1.5096, 1.4992, 1.5020, 1.4710, 1.4608,
   1.4341, 1.4428, 1.4209, 1.4151, 1.4090, 1.4021, 1.3847, 1.3907,
   1.3434, 1.3253, 1.3380, 1.2933, 1.3124, 1.3091, 1.2768, 1.2749,
   1.2740, 1.2773, 1.2430, 1.2020, 1.1958, 1.1895, 1.2008, 1.1573,
   1.1751, 1.1889, 1.1762, 1.1737, 1.1242, 1.0648, 1.0717, 1.0568,
   1.0650, 1.0475, 1.0293, 1.0494, 1.0200, 1.0358, 0.9877, 1.0173,
   0.9744, 0.9497, 0.9345, 0.9636, 0.9197, 0.8984, 0.8895, 0.9048,
   0.8737, 0.9479, 0.8906, 0.8589]

/-- `true` iff every element of the list is strictly larger than its
successor, i.e. the loss decreases from every epoch to the next. -/
def pairwiseDecreasing : List ℚ → Bool
  | a :: b :: rest => decide (b < a) && pairwiseDecreasing (b :: rest)
  | _ => true

/- ------------------------------------------------------------------ -/
/- Layer stacks and sequential forward passes (C2).                    -/
/- ------------------------------------------------------------------ -/

/-- Constructor arguments of one `SCoNeLayer(channels=channels)` call in
`SCoNeNN.__init__`. -/
structure SCoNeLayerArgs : Type where
  channels : Nat
  deriving DecidableEq

/-- Constructor arguments of one
`SCN2Layer(in_channels_0=..., in_channels_1=..., in_channels_2=...)`
call in `SCN2.__init__`. -/
structure SCN2LayerArgs : Type where
  in_channels_0 : Nat
  in_channels_1 : Nat
  in_channels_2 : Nat
  deriving DecidableEq

/-- Constructor arguments of one
`SCACMPSLayer(channels_list, complex_dim, att)` call in
`AMPSSCA.__init__`. -/
structure SCACMPSLayerArgs : Type where
  channels_list : List Nat
  complex_dim : Nat
  att : Bool
  deriving DecidableEq

/-- Constructor arguments of one `CANLayer(channels=in_channels_1,
att=att)` call in `CAN.__init__`. -/
structure CANLayerArgs : Type where
  channels : Nat
  att : Bool
  deriving DecidableEq

/-- Constructor arguments of one
`HMPNNLayer(hidden_features[-1], adjacency_dropout=...,
updating_dropout=...)` call in `HMPNN.__init__`. -/
structure HMPNNLayerArgs : Type where
  hidden : Nat
  adjacency_dropout : ℚ
  updating_dropout : ℚ
  deriving DecidableEq

/-- The layer-construction loop of `SCoNeNN.__init__`:
`for _ in range(n_layers): layers.append(SCoNeLayer(channels=channels))`. -/
def sconeNNBuildLayers (channels n_layers : Nat) : List SCoNeLayerArgs :=
  (List.range n_layers).map (fun _ => { channels := channels })

/-- The layer-construction loop of `SCN2.__init__`. -/
def scn2BuildLayers (in0 in1 in2 n_layers : Nat) : List SCN2LayerArgs :=
  (List.range n_layers).map
    (fun _ => { in_channels_0 := in0, in_channels_1 := in1,
                in_channels_2 := in2 })

/-- The layer-construction loop of `AMPSSCA.__init__`:
`for i in range(n_layers): layers.append(SCACMPSLayer(channels_list,
complex_dim, att))`. -/
def ampsscaBuildLayers (channels_list : List Nat) (complex_dim : Nat)
    (att : Bool) (n_layers : Nat) : List SCACMPSLayerArgs :=
  (List.range n_layers).map
    (fun _ => { channels_list := channels_list, complex_dim := complex_dim,
                att := att })

/-- The layer-construction loop of `CAN.__init__`. -/
def canBuildLayers (channels : Nat) (att : Bool) (n_layers : Nat) :
    List CANLayerArgs :=
  (List.range n_layers).map (fun _ => { channels := channels, att := att })

/-- The layer-construction comprehension of `HMPNN.__init__`:
`[HMPNNLayer(hidden_features[-1], ...) for _ in range(n_layer)]`. -/
def hmpnnBuildLayers (hidden : Nat) (adjacency_dropout updating_dropout : ℚ)
    (n_layer : Nat) : List HMPNNLayerArgs :=
  (List.range n_layer).map
    (fun _ => { hidden := hidden, adjacency_dropout := adjacency_dropout,
                updating_dropout := updating_dropout })

/-- `for layer in layers: x = layer(x)` — the sequential layer loop that
every model's forward pass runs, each layer fed the previous layer's
output. -/
def applySeq {α : Type} : List (α → α) → α → α
  | [], x => x
  | f :: fs, x => applySeq fs (f x)

/-- `SCoNeNN.forward`: the layer loop on the edge features, then
`self.linear`, then `torch.softmax`. -/
def sconeNNForwardSeq {α β γ : Type} (layerFuns : List (α → α))
    (linear : α → β) (softmax : β → γ) (x_1 : α) : γ :=
  softmax (linear (applySeq layerFuns x_1))

/-- `SCN2.forward`: the layer loop on the (nodes, edges, faces) feature
triple, then the three linear projections `lin_0`, `lin_1`, `lin_2`,
then the mean-and-sum tail. -/
def scn2ForwardSeq {α0 α1 α2 β γ : Type}
    (layerFuns : List (α0 × α1 × α2 → α0 × α1 × α2))
    (lin_0 : α0 → β) (lin_1 : α1 → β) (lin_2 : α2 → β)
    (tail : β → β → β → γ) (x : α0 × α1 × α2) : γ :=
  tail (lin_0 (applySeq layerFuns x).1) (lin_1 (applySeq layerFuns x).2.1)
    (lin_2 (applySeq layerFuns x).2.2)

/-- `AMPSSCA.forward`: the layer loop on the whole feature list `x_list`
(`for i in range(self.n_layers): x_list = self.layers[i](x_list, ...)`),
then the three linear projections applied to `x_list[0..2]`, then the
mean-and-sum tail. -/
def ampsscaForwardSeq {α β γ : Type}
    (layerFuns : List (List α → List α)) (d : α)
    (lin0 lin1 lin2 : α → β) (tail : β → β → β → γ) (x_list : List α) :
    γ :=
  tail (lin0 ((applySeq layerFuns x_list).getD 0 d))
    (lin1 ((applySeq layerFuns x_list).getD 1 d))
    (lin2 ((applySeq layerFuns x_list).getD 2 d))

/-- `CAN.forward`: the layer loop on the edge features `x_1` only, then
the three linear projections, then the mean-and-sum tail. -/
def canForwardSeq {α0 α1 α2 β γ : Type} (layerFuns : List (α1 → α1))
    (lin_0 : α0 → β) (lin_1 : α1 → β) (lin_2 : α2 → β)
    (tail : β → β → β → γ) (x_0 : α0) (x_1 : α1) (x_2 : α2) : γ :=
  tail (lin_0 x_0) (lin_1 (applySeq layerFuns x_1)) (lin_2 x_2)

/-- `HMPNN.forward`: `to_hidden_linear` on the node and hyperedge
features, the layer loop on the feature pair, then
`to_categories_linear` on the node features. -/
def hmpnnForwardSeq {α γ δ : Type} (to_hidden : α → γ)
    (layerFuns : List (γ × γ → γ × γ)) (to_categories : γ → δ)
    (x_0 x_1 : α) : δ :=
  to_categories (applySeq layerFuns (to_hidden x_0, to_hidden x_1)).1

/- ------------------------------------------------------------------ -/
/- Statelessness of the forward passes (C3).                           -/
/- ------------------------------------------------------------------ -/

/-- The store visible to a Python forward call: the model's attribute
slots (`self.…`) and the method's local variables, with tensor values
abstracted by an arbitrary type `V`. -/
structure PyStore (V : Type) : Type where
  fields : List V
  locals : List V

/-- One elementary step of a forward method body: read an attribute of
`self`, bind a local variable, or assign an attribute of `self`.  The
computed value of an assignment is an arbitrary function `f` of the
store, abstracting the tensor arithmetic delegated to torch. -/
inductive FwdStep (V : Type) : Type
  | readField (i : Nat) : FwdStep V
  | setLocal (i : Nat) (f : PyStore V → V) : FwdStep V
  | setField (i : Nat) (f : PyStore V → V) : FwdStep V

/-- Effect of one step on the store. -/
def FwdStep.run {V : Type} : FwdStep V → PyStore V → PyStore V
  | FwdStep.readField _, s => s
  | FwdStep.setLocal i f, s => { s with locals := s.locals.set i (f s) }
  | FwdStep.setField i f, s => { s with fields := s.fields.set i (f s) }

/-- Running a forward method body. -/
def runSteps {V : Type} (l : List (FwdStep V)) (s : PyStore V) :
    PyStore V :=
  l.foldl (fun s st => st.run s) s

/-- `true` iff the step assigns an attribute of `self`. -/
def FwdStep.writesField {V : Type} : FwdStep V → Bool
  | FwdStep.setField _ _ => true
  | _ => false

/-- The body of `SCN2.forward`, statement by statement.  Fields:
`0 = layers`, `1 = lin_0`, `2 = lin_1`, `3 = lin_2`.  Locals:
`0..2 = x_0, x_1, x_2`, `3..5` the three per-dimension means.  Each loop
iteration reads `self.layers` and rebinds `x_0, x_1, x_2`; afterwards
the three linear projections rebind `x_0, x_1, x_2`, and each mean is
bound and then NaN-fixed in place (`mean[torch.isnan(mean)] = 0`, an
update of a local tensor, not of the model). -/
def scn2ForwardSteps {V : Type} (g : Nat → PyStore V → V)
    (n_layers : Nat) : List (FwdStep V) :=
  ((List.range n_layers).flatMap (fun _ =>
    [FwdStep.readField 0, FwdStep.setLocal 0 (g 0),
     FwdStep.setLocal 1 (g 1), FwdStep.setLocal 2 (g 2)])) ++
  [FwdStep.readField 1, FwdStep.setLocal 0 (g 3),
   FwdStep.readField 2, FwdStep.setLocal 1 (g 4),
   FwdStep.readField 3, FwdStep.setLocal 2 (g 5),
   FwdStep.setLocal 3 (g 6), FwdStep.setLocal 3 (g 7),
   FwdStep.setLocal 4 (g 8), FwdStep.setLocal 4 (g 9),
   FwdStep.setLocal 5 (g 10), FwdStep.setLocal 5 (g 11)]

/-- The body of `HMPNN.forward`, statement by statement.  Fields:
`0 = to_hidden_linear`, `1 = layers`, `2 = to_categories_linear`.
Locals: `0 = x_0`, `1 = x_1`.  The two pre-projections rebind the
locals, each loop iteration reads `self.layers` and rebinds the pair,
and the returned expression only reads `self.to_categories_linear`. -/
def hmpnnForwardSteps {V : Type} (g : Nat → PyStore V → V)
    (n_layer : Nat) : List (FwdStep V) :=
  [FwdStep.readField 0, FwdStep.setLocal 0 (g 0),
   FwdStep.readField 0, FwdStep.setLocal 1 (g 1)] ++
  ((List.range n_layer).flatMap (fun _ =>
    [FwdStep.readField 1, FwdStep.setLocal 0 (g 2),
     FwdStep.setLocal 1 (g 3)])) ++
  [FwdStep.readField 2]

/-- The body of `SCoNeNN.forward`, statement by statement.  Fields (in
`__init__` assignment order): `0 = linear`, `1 = layers`.  Locals:
`0 = x_1`.  Each loop iteration reads `self.layers` and rebinds `x_1`;
then `x_1 = self.linear(x_1)` reads `self.linear` and rebinds `x_1`;
the returned `torch.softmax(x_1, dim=-1)` reads only the local. -/
def sconeNNForwardSteps {V : Type} (g : Nat → PyStore V → V)
    (n_layers : Nat) : List (FwdStep V) :=
  ((List.range n_layers).flatMap (fun _ =>
    [FwdStep.readField 1, FwdStep.setLocal 0 (g 0)])) ++
  [FwdStep.readField 0, FwdStep.setLocal 0 (g 1)]

/-- The body of `AMPSSCA.forward`, statement by statement.  Fields:
`0 = n_layers`, `1 = layers`, `2 = lin0`, `3 = lin1`, `4 = lin2`.
Locals: `0 = x_list`, `1..3 = x_0, x_1, x_2`, `4..6` the three means
(each bound and then NaN-fixed in place), `7..9 = x_2f, x_1f, x_0f`.
The loop header reads `self.n_layers`, each iteration reads
`self.layers` and rebinds `x_list`, and the tail rebinds locals only. -/
def ampsscaForwardSteps {V : Type} (g : Nat → PyStore V → V)
    (n_layers : Nat) : List (FwdStep V) :=
  [FwdStep.readField 0] ++
  ((List.range n_layers).flatMap (fun _ =>
    [FwdStep.readField 1, FwdStep.setLocal 0 (g 0)])) ++
  [FwdStep.readField 2, FwdStep.setLocal 1 (g 1),
   FwdStep.readField 3, FwdStep.setLocal 2 (g 2),
   FwdStep.readField 4, FwdStep.setLocal 3 (g 3),
   FwdStep.setLocal 4 (g 4), FwdStep.setLocal 4 (g 5),
   FwdStep.setLocal 5 (g 6), FwdStep.setLocal 5 (g 7),
   FwdStep.setLocal 6 (g 8), FwdStep.setLocal 6 (g 9),
   FwdStep.setLocal 7 (g 10), FwdStep.setLocal 8 (g 11),
   FwdStep.setLocal 9 (g 12)]

/-- The body of `CAN.forward`, statement by statement.  Fields (in
`__init__` assignment order): `0 = layers`, `1 = lin_0`, `2 = lin_1`,
`3 = lin_2`.  Locals: `0..2 = x_0, x_1, x_2`, `3..5` the three means
(each bound and then NaN-fixed in place).  Each loop iteration reads
`self.layers` and rebinds `x_1`; the three projections read the `lin`
fields and rebind locals; the mean tail touches locals only. -/
def canForwardSteps {V : Type} (g : Nat → PyStore V → V)
    (n_layers : Nat) : List (FwdStep V) :=
  ((List.range n_layers).flatMap (fun _ =>
    [FwdStep.readField 0, FwdStep.setLocal 1 (g 0)])) ++
  [FwdStep.readField 1, FwdStep.setLocal 0 (g 1),
   FwdStep.readField 2, FwdStep.setLocal 1 (g 2),
   FwdStep.readField 3, FwdStep.setLocal 2 (g 3),
   FwdStep.setLocal 3 (g 4), FwdStep.setLocal 3 (g 5),
   FwdStep.setLocal 4 (g 6), FwdStep.setLocal 4 (g 7),
   FwdStep.setLocal 5 (g 8), FwdStep.setLocal 5 (g 9)]

/- ------------------------------------------------------------------ -/
/- Parameter registration and the optimizer (C4).                      -/
/- ------------------------------------------------------------------ -/

/-- A parameter-carrying attribute of a torch module.  Modelled from the
spec's external-collaborator (torch) semantics: an attribute whose value
is a `torch.nn.Module` or `torch.nn.ModuleList` is registered as a
submodule and contributes to `model.parameters()`; an attribute holding
a plain Python value (such as the plain list `self.layers = layers` in
`SCoNeNN.__init__` and `CAN.__init__`) is not registered. -/
inductive ModuleAttr (P : Type) : Type
  | submodule (params : List P) : ModuleAttr P
  | plainValue (params : List P) : ModuleAttr P

/-- `model.parameters()`: the parameters of registered submodules, in
attribute order; parameters reachable only through unregistered plain
attributes are not yielded. -/
def collectParams {P : Type} : List (ModuleAttr P) → List P
  | [] => []
  | ModuleAttr.submodule ps :: rest => ps ++ collectParams rest
  | ModuleAttr.plainValue _ :: rest => collectParams rest

/-- One `optimizer.step()` of an optimizer built as
`torch.optim.Adam(model.parameters(), …)`: it applies an update `u` to
exactly the parameters yielded by `model.parameters()` — those of the
registered submodules — and touches nothing else. -/
def optimizerStep {P : Type} (u : P → P) :
    List (ModuleAttr P) → List (ModuleAttr P) :=
  List.map (fun a =>
    match a with
    | ModuleAttr.submodule ps => ModuleAttr.submodule (ps.map u)
    | ModuleAttr.plainValue ps => ModuleAttr.plainValue ps)

/-- The parameters held in unregistered plain attributes. -/
def plainParams {P : Type} : List (ModuleAttr P) → List P
  | [] => []
  | ModuleAttr.submodule _ :: rest => plainParams rest
  | ModuleAttr.plainValue ps :: rest => ps ++ plainParams rest

/-- The attributes of a `SCoNeNN` instance, in the assignment order of
`SCoNeNN.__init__`: `self.linear` (a `torch.nn.Linear`, registered),
then `self.layers` (a plain Python list of `SCoNeLayer`s, not
registered). -/
def sconeNNAttrs {P : Type} (layerParams linearParams : List P) :
    List (ModuleAttr P) :=
  [ModuleAttr.submodule linearParams, ModuleAttr.plainValue layerParams]

/-- The attributes of a `CAN` instance, in the assignment order of
`CAN.__init__`: `self.layers` (a plain Python list of `CANLayer`s, not
registered), then the registered `self.lin_0`, `self.lin_1`,
`self.lin_2`. -/
def canAttrs {P : Type} (layerParams lin0 lin1 lin2 : List P) :
    List (ModuleAttr P) :=
  [ModuleAttr.plainValue layerParams, ModuleAttr.submodule lin0,
   ModuleAttr.submodule lin1, ModuleAttr.submodule lin2]

/- ------------------------------------------------------------------ -/
/- Error propagation (C6).                                             -/
/- ------------------------------------------------------------------ -/

/-- An error raised by the underlying numeric library during a cell. -/
inductive PyError : Type
  | shapeMismatch : PyError
  | nanError : PyError
  | other (code : Nat) : PyError
  deriving DecidableEq

/-- A top-level statement (cell) of a notebook script: a plain statement
with no handler, a try/except block (which would recover from an error
in its body), or the definition of a custom error type.  The notebooks
contain only plain statements. -/
inductive NotebookStmt : Type
  | plain (id : Nat) : NotebookStmt
  | tryHandler (bodyId handlerId : Nat) : NotebookStmt
  | defErrorType (id : Nat) : NotebookStmt
  deriving DecidableEq

/-- Execution of a script under an environment `outcome` that says which
error, if any, the numeric library raises in each plain statement.  An
error in a plain statement aborts the whole run (there is no enclosing
handler); a `tryHandler` would swallow an error in its body and
continue. -/
def runStmts (outcome : Nat → Option PyError) :
    List NotebookStmt → Except PyError Unit
  | [] => Except.ok ()
  | NotebookStmt.plain i :: rest =>
      match outcome i with
      | some e => Except.error e
      | none => runStmts outcome rest
  | NotebookStmt.tryHandler _ _ :: rest => runStmts outcome rest
  | NotebookStmt.defErrorType _ :: rest => runStmts outcome rest

/-- `true` iff the script installs an exception handler somewhere. -/
def hasHandler (l : List NotebookStmt) : Bool :=
  l.any (fun s =>
    match s with
    | NotebookStmt.tryHandler _ _ => true
    | _ => false)

/-- `true` iff the script defines a custom error type somewhere. -/
def definesErrorType (l : List NotebookStmt) : Bool :=
  l.any (fun s =>
    match s with
    | NotebookStmt.defErrorType _ => true
    | _ => false)

/-- A script of `n` consecutive plain statements. -/
def mkScript (n : Nat) : List NotebookStmt :=
  (List.range n).map NotebookStmt.plain

/-- The 10 code cells of the SCoNe notebook, all plain statements. -/
def sconeScript : List NotebookStmt := mkScript 10

/-- The 10 code cells of the SCN2 notebook, all plain statements. -/
def scn2Script : List NotebookStmt := mkScript 10

/-- The 11 code cells of the AMPSSCA notebook, all plain statements. -/
def ampsscaScript : List NotebookStmt := mkScript 11

/-- The 14 code cells of the CAN notebook, all plain statements. -/
def canScript : List NotebookStmt := mkScript 14

/-- The 8 code cells of the HMPNN notebook, all plain statements. -/
def hmpnnScript : List NotebookStmt := mkScript 8

/-- An environment in which the numeric library raises a shape mismatch
in the statement with id 3 and succeeds everywhere else. -/
def failAtThree : Nat → Option PyError :=
  fun n => if n = 3 then some PyError.shapeMismatch else none

/- ------------------------------------------------------------------ -/
/- No persistent state (C7).                                           -/
/- ------------------------------------------------------------------ -/

/-- Classification of the notebooks' code cells: setup (imports, device
selection, seeding), loading a dataset through the external library,
in-memory tensor computation (features, neighborhood matrices, splits),
display of a value, definition of a model class, creation of a model and
optimizer, a training loop with interleaved evaluation, a standalone
evaluation cell — plus the two kinds of cell the notebooks never
contain: a write of data to disk and the definition of a file format of
the repository's own. -/
inductive NotebookOp : Type
  | setup : NotebookOp
  | datasetLoad : NotebookOp
  | tensorCompute : NotebookOp
  | display : NotebookOp
  | classDef : NotebookOp
  | modelCreate : NotebookOp
  | trainEvalLoop : NotebookOp
  | evalRun : NotebookOp
  | diskWrite (payload : Nat) : NotebookOp
  | defineFileFormat : NotebookOp
  deriving DecidableEq

/-- `true` iff the cell creates state that outlives the run: a disk
write or a file format of the repository's own. -/
def NotebookOp.persistsState : NotebookOp → Bool
  | NotebookOp.diskWrite _ => true
  | NotebookOp.defineFileFormat => true
  | _ => false

/-- Effect of one cell on the on-disk state (a list of written
payloads): only `diskWrite` changes it. -/
def opDisk : NotebookOp → List Nat → List Nat
  | NotebookOp.diskWrite p, d => d ++ [p]
  | _, d => d

/-- The on-disk state after a notebook run that started from disk state
`d`. -/
def runDisk (ops : List NotebookOp) (d : List Nat) : List Nat :=
  ops.foldl (fun d op => opDisk op d) d

/-- The code cells of the SCoNe notebook in order: imports, device, the
karate-club load, the Laplacians, features/labels, a shape display, the
train/test split, the `SCoNeNN` class, model and optimizer, and the
training loop. -/
def sconeOps : List NotebookOp :=
  [NotebookOp.setup, NotebookOp.setup, NotebookOp.datasetLoad,
   NotebookOp.tensorCompute, NotebookOp.tensorCompute, NotebookOp.display,
   NotebookOp.tensorCompute, NotebookOp.classDef, NotebookOp.modelCreate,
   NotebookOp.trainEvalLoop]

/-- The code cells of the SCN2 notebook in order. -/
def scn2Ops : List NotebookOp :=
  [NotebookOp.setup, NotebookOp.setup, NotebookOp.datasetLoad,
   NotebookOp.display, NotebookOp.tensorCompute, NotebookOp.classDef,
   NotebookOp.tensorCompute, NotebookOp.modelCreate,
   NotebookOp.tensorCompute, NotebookOp.trainEvalLoop]

/-- The code cells of the AMPSSCA notebook in order. -/
def ampsscaOps : List NotebookOp :=
  [NotebookOp.setup, NotebookOp.setup, NotebookOp.datasetLoad,
   NotebookOp.display, NotebookOp.tensorCompute, NotebookOp.tensorCompute,
   NotebookOp.display, NotebookOp.classDef, NotebookOp.tensorCompute,
   NotebookOp.modelCreate, NotebookOp.trainEvalLoop]

/-- The code cells of the CAN notebook in order (two model/loop pairs:
without and with attention). -/
def canOps : List NotebookOp :=
  [NotebookOp.setup, NotebookOp.setup, NotebookOp.datasetLoad,
   NotebookOp.display, NotebookOp.tensorCompute, NotebookOp.display,
   NotebookOp.tensorCompute, NotebookOp.tensorCompute, NotebookOp.classDef,
   NotebookOp.modelCreate, NotebookOp.tensorCompute,
   NotebookOp.trainEvalLoop, NotebookOp.modelCreate,
   NotebookOp.trainEvalLoop]

/-- The code cells of the HMPNN notebook in order (its dataset cell
`Planetoid(".", "cora")[0]` is a load through the external
torch-geometric collaborator, which the spec scopes out; the notebook
itself issues no write). -/
def hmpnnOps : List NotebookOp :=
  [NotebookOp.setup, NotebookOp.setup, NotebookOp.datasetLoad,
   NotebookOp.tensorCompute, NotebookOp.classDef, NotebookOp.modelCreate,
   NotebookOp.trainEvalLoop, NotebookOp.evalRun]

/- ------------------------------------------------------------------ -/
/- Matrices and the Laplacian operators (C8, C9).                      -/
/- ------------------------------------------------------------------ -/

/-- A dense matrix as its list of rows. -/
abbrev Mat (α : Type) : Type := List (List α)

/-- A matrix has `r` rows, each of length `c`. -/
def wellFormed {α : Type} (r c : Nat) (m : Mat α) : Prop :=
  m.length = r ∧ ∀ row ∈ m, row.length = c

/-- Dot product of two rows. -/
def dotProd {α : Type} [Field α] (u v : List α) : α :=
  (List.zipWith (fun a b => a * b) u v).sum

/-- The transpose of a matrix with `c` columns (missing entries default
to `0`). -/
def transposeN {α : Type} [Field α] (c : Nat) (m : Mat α) : Mat α :=
  (List.range c).map (fun j => m.map (fun row => row.getD j 0))

/-- `a * bt.T`: each row of the product dots a row of `a` with the rows
of `bt`. -/
def mulT {α : Type} [Field α] (a bt : Mat α) : Mat α :=
  a.map (fun row => bt.map (fun col => dotProd row col))

/-- `a * b`, where `b` has `k` columns. -/
def matMul {α : Type} [Field α] (k : Nat) (a b : Mat α) : Mat α :=
  mulT a (transposeN k b)

/-- Entrywise sum of two matrices. -/
def matAdd {α : Type} [Field α] : Mat α → Mat α → Mat α :=
  List.zipWith (List.zipWith (fun x y => x + y))

/-- Entrywise application of a function. -/
def entrywise {α : Type} (f : α → α) (m : Mat α) : Mat α :=
  m.map (fun row => row.map f)

/-- Modelled from the spec: the `up_laplacian_matrix(rank=r)` builder of
the external toponetx collaborator (not under `src/`), per the spec's
glossary entry "Laplacian (up/down): linear operators encoding adjacency
between cells of adjacent dimension": the rank-`r` up Laplacian is
`B_{r+1} * B_{r+1}.T` for the incidence matrix `B_{r+1}` of shape
`[n_r, n_{r+1}]`. -/
def upLaplacian {α : Type} [Field α] (bNext : Mat α) : Mat α :=
  mulT bNext bNext

/-- Modelled from the spec: the `down_laplacian_matrix(rank=r)` builder
of the external toponetx collaborator: the rank-`r` down Laplacian is
`B_r.T * B_r` for the incidence matrix `B_r` of shape
`[n_{r-1}, n_r]`. -/
def downLaplacian {α : Type} [Field α] (nr : Nat) (b : Mat α) : Mat α :=
  mulT (transposeN nr b) (transposeN nr b)

/-- The rank-`r` Hodge Laplacian: down plus up. -/
def hodgeLaplacian {α : Type} [Field α] (nr : Nat) (b bNext : Mat α) :
    Mat α :=
  matAdd (downLaplacian nr b) (upLaplacian bNext)

/-- Entrywise row/column rescaling of the entries of one row, entry `j`
scaled by `d i * d j` (row index `i`, running column index `j`). -/
def scaleEntries {α : Type} [Field α] (d : Nat → α) (i : Nat) :
    Nat → List α → List α
  | _, [] => []
  | j, x :: xs => (d i * x * d j) :: scaleEntries d i (j + 1) xs

/-- Entrywise row/column rescaling of a matrix starting at row index
`i`. -/
def scaleRows {α : Type} [Field α] (d : Nat → α) : Nat → Mat α → Mat α
  | _, [] => []
  | i, row :: rest => scaleEntries d i 0 row :: scaleRows d (i + 1) rest

/-- Modelled from the spec: the `normalized_laplacian_matrix(rank=r)`
builder of the external toponetx collaborator — a degree rescaling of
the rank-`r` Hodge Laplacian, entry `(i, j)` scaled by `d i * d j`; the
scaling coefficients `d` are abstracted (the library's inverse square
roots of the degrees are irrational), which does not affect the shape
the claim is about. -/
def normalizedLaplacian {α : Type} [Field α] (nr : Nat) (d : Nat → α)
    (b bNext : Mat α) : Mat α :=
  scaleRows d 0 (hodgeLaplacian nr b bNext)

/-- One SCoNe layer, from the layer equations displayed in
`scone_train_bis.ipynb`: the up-message `sigma(L_up * h * T1)`, the
down-message `L_down * h * T2` and the identity message
`iden * h * T3` are summed and the activation applied
(`h' = sigma(sigma(L_up h T1) + L_down h T2 + iden h T3)`); `c` is the
channel count, `act` the activation delegated to the external layer
implementation. -/
def sconeLayer {α : Type} [Field α] (act : α → α) (c : Nat)
    (upLap downLap iden t1 t2 t3 h : Mat α) : Mat α :=
  entrywise act
    (matAdd
      (matAdd (entrywise act (matMul c (matMul c upLap h) t1))
        (matMul c (matMul c downLap h) t2))
      (matMul c (matMul c iden h) t3))

/-- The layer loop of `SCoNeNN.forward`:
`for layer in self.layers: x_1 = layer(x_1, up_lap1, down_lap1, iden)`,
each layer with its own weight triple. -/
def sconeLayers {α : Type} [Field α] (act : α → α) (c : Nat)
    (upLap downLap iden : Mat α) :
    List (Mat α × Mat α × Mat α) → Mat α → Mat α
  | [], h => h
  | w :: ws, h =>
      sconeLayers act c upLap downLap iden ws
        (sconeLayer act c upLap downLap iden w.1 w.2.1 w.2.2 h)

/-- `torch.nn.Linear(channels, 2)`: each row is mapped to its two
affine images (weight rows `w1`, `w2`, biases `b1`, `b2`). -/
def linear2 {α : Type} [Field α] (w1 w2 : List α) (b1 b2 : α)
    (m : Mat α) : Mat α :=
  m.map (fun row => [dotProd row w1 + b1, dotProd row w2 + b2])

/-- `torch.softmax(·, dim=-1)` on one row, with exponential `e`. -/
def softmaxRowG {α : Type} [Field α] (e : α → α) (row : List α) :
    List α :=
  row.map (fun v => e v / (row.map e).sum)

/-- `SCoNeNN.forward`: the layer loop, then `self.linear`, then
`torch.softmax(x_1, dim=-1)` row by row. -/
def sconeNNforward {α : Type} [Field α] (e act : α → α) (c : Nat)
    (ws : List (Mat α × Mat α × Mat α)) (upLap downLap iden : Mat α)
    (w1 w2 : List α) (b1 b2 : α) (x1 : Mat α) : Mat α :=
  (linear2 w1 w2 b1 b2 (sconeLayers act c upLap downLap iden ws x1)).map
    (softmaxRowG e)

/- ------------------------------------------------------------------ -/
/- NaN handling in the mean-and-sum tails (C10).                       -/
/- ------------------------------------------------------------------ -/

/-- A float value abstracted as either NaN or a rational. -/
inductive FVal : Type
  | nan : FVal
  | val (q : ℚ) : FVal
  deriving DecidableEq

/-- Addition with NaN propagation. -/
def FVal.add : FVal → FVal → FVal
  | FVal.val a, FVal.val b => FVal.val (a + b)
  | _, _ => FVal.nan

/-- `torch.isnan` on one value. -/
def FVal.isNaN : FVal → Bool
  | FVal.nan => true
  | FVal.val _ => false

/-- `torch.nanmean` of one column: the mean of the non-NaN entries, NaN
when there is none (in particular for the empty column of an empty cell
dimension). -/
def nanmeanCol (l : List FVal) : FVal :=
  let vs := l.filterMap (fun x =>
    match x with
    | FVal.val q => some q
    | FVal.nan => none)
  if vs.length = 0 then FVal.nan else FVal.val (vs.sum / vs.length)

/-- `torch.nanmean(x, dim=0)` for a matrix with `c` columns: one
`nanmeanCol` per column. -/
def nanmeanDim0 (c : Nat) (m : List (List FVal)) : List FVal :=
  (List.range c).map
    (fun j => nanmeanCol (m.map (fun row => row.getD j FVal.nan)))

/-- `mean[torch.isnan(mean)] = 0`: NaN entries replaced by `0`. -/
def zeroNaN (v : FVal) : FVal :=
  if v.isNaN then FVal.val 0 else v

/-- `zeroNaN` applied to a whole mean vector. -/
def zeroNaNs (l : List FVal) : List FVal := l.map zeroNaN

/-- Entrywise sum of two feature vectors, with NaN propagation. -/
def addVec (u v : List FVal) : List FVal := List.zipWith FVal.add u v

/-- The NaN-fixed per-dimension mean of `SCN2.forward` and its
relatives: `torch.nanmean(x, dim=0)` followed by
`mean[torch.isnan(mean)] = 0`. -/
def fixedMean (c : Nat) (x : List (List FVal)) : List FVal :=
  zeroNaNs (nanmeanDim0 c x)

/-- The tail of `SCN2.forward` after the linear projections: the three
NaN-fixed per-dimension means summed in the source's order
`two_dimensional + one_dimensional + zero_dimensional`. -/
def scn2MeanTail (c : Nat) (x0 x1 x2 : List (List FVal)) : List FVal :=
  addVec (addVec (fixedMean c x2) (fixedMean c x1)) (fixedMean c x0)

/-- The tail of `AMPSSCA.forward`: the same three NaN-fixed means,
flattened and summed in the source's order `x_0f + x_1f + x_2f`. -/
def ampsscaMeanTail (c : Nat) (x0 x1 x2 : List (List FVal)) :
    List FVal :=
  addVec (addVec (fixedMean c x0) (fixedMean c x1)) (fixedMean c x2)

/-- The tail of `CAN.forward`: the same three NaN-fixed means summed in
the source's order `one_dimensional + zero_dimensional +
two_dimensional`. -/
def canMeanTail (c : Nat) (x0 x1 x2 : List (List FVal)) : List FVal :=
  addVec (addVec (fixedMean c x1) (fixedMean c x0)) (fixedMean c x2)

end SCNN

namespace SCNN

/-- Claim C1 counterexample: in `scone_train_bis.ipynb` the training loop
runs with `num_epochs = 6` and `test_interval = 2`, and its run trace
contains training steps after evaluation steps on the held-out test set
(the test evaluation at epoch 2 precedes the training steps of epochs
3–6), so evaluation is interleaved with training, not performed only
after the training loop has completed. -/
theorem C1_counterexample :
    noTrainAfterEval (notebookTrace 6 2) = false := by decide

/-- Claim C1 (amended): each notebook is the linear pipeline
load → build matrices → instantiate model → training loop, but
evaluation of held-out data happens inside the training loop: at every
epoch divisible by `test_interval`, immediately after that epoch's
training step.  Shown here as the explicit run traces at the parameters
of the four loops with `test_interval`-gated evaluation: SCoNe
(`num_epochs = 6, test_interval = 2`), SCN2 (`8, 2`), AMPSSCA (`6, 1`)
and CAN (`10, 2`, both the plain and the attention run). -/
theorem C1_amended :
    notebookTrace 6 2 =
      [RunEvent.load, RunEvent.buildMatrices, RunEvent.instantiate,
       RunEvent.trainStep 1, RunEvent.trainStep 2, RunEvent.evalStep 2,
       RunEvent.trainStep 3, RunEvent.trainStep 4, RunEvent.evalStep 4,
       RunEvent.trainStep 5, RunEvent.trainStep 6, RunEvent.evalStep 6] ∧
    notebookTrace 8 2 =
      [RunEvent.load, RunEvent.buildMatrices, RunEvent.instantiate,
       RunEvent.trainStep 1, RunEvent.trainStep 2, RunEvent.evalStep 2,
       RunEvent.trainStep 3, RunEvent.trainStep 4, RunEvent.evalStep 4,
       RunEvent.trainStep 5, RunEvent.trainStep 6, RunEvent.evalStep 6,
       RunEvent.trainStep 7, RunEvent.trainStep 8, RunEvent.evalStep 8] ∧
    notebookTrace 6 1 =
      [RunEvent.load, RunEvent.buildMatrices, RunEvent.instantiate,
       RunEvent.trainStep 1, RunEvent.evalStep 1, RunEvent.trainStep 2,
       RunEvent.evalStep 2, RunEvent.trainStep 3, RunEvent.evalStep 3,
       RunEvent.trainStep 4, RunEvent.evalStep 4, RunEvent.trainStep 5,
       RunEvent.evalStep 5, RunEvent.trainStep 6, RunEvent.evalStep 6] ∧
    notebookTrace 10 2 =
      [RunEvent.load, RunEvent.buildMatrices, RunEvent.instantiate,
       RunEvent.trainStep 1, RunEvent.trainStep 2, RunEvent.evalStep 2,
       RunEvent.trainStep 3, RunEvent.trainStep 4, RunEvent.evalStep 4,
       RunEvent.trainStep 5, RunEvent.trainStep 6, RunEvent.evalStep 6,
       RunEvent.trainStep 7, RunEvent.trainStep 8, RunEvent.evalStep 8,
       RunEvent.trainStep 9, RunEvent.trainStep 10,
       RunEvent.evalStep 10] := by
  refine ⟨?_, ?_, ?_, ?_⟩ <;> decide

/-- Claim C5 counterexample: in the recorded SCoNe run the reported mean
training loss does not decrease from every epoch to the next: it
increases from epoch 2 (`0.7185`) to epoch 3 (`0.7205`). -/
theorem C5_counterexample :
    pairwiseDecreasing sconeEpochLosses = false ∧
    sconeEpochLosses.get? 1 = some 0.7185 ∧
    sconeEpochLosses.get? 2 = some 0.7205 ∧ (0.7185 : ℚ) < 0.7205 := by
  refine ⟨?_, ?_, ?_, ?_⟩ <;>
    norm_num [pairwiseDecreasing, sconeEpochLosses]

/-- Claim C5 (amended): the "loss decreases" contract is not an
invariant of the notebooks.  In the recorded runs the mean training loss
does decrease between every pair of consecutive epochs for SCN2, AMPSSCA
and CAN (with and without attention), but not for SCoNe and not for
HMPNN, whose losses increase between some consecutive epochs. -/
theorem C5_amended :
    pairwiseDecreasing scn2EpochLosses = true ∧
    pairwiseDecreasing ampsscaEpochLosses = true ∧
    pairwiseDecreasing canEpochLosses = true ∧
    pairwiseDecreasing canAttEpochLosses = true ∧
    pairwiseDecreasing sconeEpochLosses = false ∧
    pairwiseDecreasing hmpnnEpochLosses = false := by
  refine ⟨?_, ?_, ?_, ?_, ?_, ?_⟩ <;>
    norm_num [pairwiseDecreasing, scn2EpochLosses, ampsscaEpochLosses,
      canEpochLosses, canAttEpochLosses, sconeEpochLosses,
      hmpnnEpochLosses]

/-- Mapping a constant function over `List.range n` gives `n` copies of
the constant: the layer-construction loops build identical entries. -/
theorem range_map_const {α : Type} (c : α) (n : Nat) :
    (List.range n).map (fun _ => c) = List.replicate n c := by
  induction n with
  | zero => rfl
  | succ m ih =>
      rw [List.range_succ, List.map_append, ih, List.replicate_succ']
      rfl

/-- The sequential layer loop is the left fold of function application
over the layer list. -/
theorem applySeq_eq_foldl {α : Type} (fs : List (α → α)) (x : α) :
    applySeq fs x = fs.foldl (fun a f => f a) x := by
  induction fs generalizing x with
  | nil => rfl
  | cons f t ih => simp [applySeq, ih]

/-- Claim C2: in all five model classes (SCoNeNN, SCN2, AMPSSCA, CAN,
HMPNN) the message-passing layers are a stack built by repeating one
constructor call with the same arguments (`n` identical argument
records), and the forward pass applies the layers strictly in sequence
(a left fold feeding each layer's output to the next layer) before the
final linear projection(s). -/
theorem C2_identical_stacks_sequential_forward :
    (∀ ch n, sconeNNBuildLayers ch n = List.replicate n ⟨ch⟩) ∧
    (∀ i0 i1 i2 n, scn2BuildLayers i0 i1 i2 n =
      List.replicate n ⟨i0, i1, i2⟩) ∧
    (∀ cl cd att n, ampsscaBuildLayers cl cd att n =
      List.replicate n ⟨cl, cd, att⟩) ∧
    (∀ ch att n, canBuildLayers ch att n = List.replicate n ⟨ch, att⟩) ∧
    (∀ h ad ud n, hmpnnBuildLayers h ad ud n =
      List.replicate n ⟨h, ad, ud⟩) ∧
    (∀ (α β γ : Type) (fs : List (α → α)) (lin : α → β) (soft : β → γ) x,
      sconeNNForwardSeq fs lin soft x =
        soft (lin (fs.foldl (fun a f => f a) x))) ∧
    (∀ (α0 α1 α2 β γ : Type) (fs : List (α0 × α1 × α2 → α0 × α1 × α2))
      (l0 : α0 → β) (l1 : α1 → β) (l2 : α2 → β) (tail : β → β → β → γ) x,
      scn2ForwardSeq fs l0 l1 l2 tail x =
        tail (l0 (fs.foldl (fun a f => f a) x).1)
          (l1 (fs.foldl (fun a f => f a) x).2.1)
          (l2 (fs.foldl (fun a f => f a) x).2.2)) ∧
    (∀ (α β γ : Type) (fs : List (List α → List α)) (d : α)
      (l0 l1 l2 : α → β) (tail : β → β → β → γ) xl,
      ampsscaForwardSeq fs d l0 l1 l2 tail xl =
        tail (l0 ((fs.foldl (fun a f => f a) xl).getD 0 d))
          (l1 ((fs.foldl (fun a f => f a) xl).getD 1 d))
          (l2 ((fs.foldl (fun a f => f a) xl).getD 2 d))) ∧
    (∀ (α0 α1 α2 β γ : Type) (fs : List (α1 → α1)) (l0 : α0 → β)
      (l1 : α1 → β) (l2 : α2 → β) (tail : β → β → β → γ) x0 x1 x2,
      canForwardSeq fs l0 l1 l2 tail x0 x1 x2 =
        tail (l0 x0) (l1 (fs.foldl (fun a f => f a) x1)) (l2 x2)) ∧
    (∀ (α γ δ : Type) (th : α → γ) (fs : List (γ × γ → γ × γ))
      (tc : γ → δ) x0 x1,
      hmpnnForwardSeq th fs tc x0 x1 =
        tc (fs.foldl (fun a f => f a) (th x0, th x1)).1) := by
  refine ⟨?_, ?_, ?_, ?_, ?_, ?_, ?_, ?_, ?_, ?_⟩
  · intro ch n; exact range_map_const _ n
  · intro i0 i1 i2 n; exact range_map_const _ n
  · intro cl cd att n; exact range_map_const _ n
  · intro ch att n; exact range_map_const _ n
  · intro h ad ud n; exact range_map_const _ n
  · intro α β γ fs lin soft x
    simp [sconeNNForwardSeq, applySeq_eq_foldl]
  · intro α0 α1 α2 β γ fs l0 l1 l2 tail x
    simp [scn2ForwardSeq, applySeq_eq_foldl]
  · intro α β γ fs d l0 l1 l2 tail xl
    simp [ampsscaForwardSeq, applySeq_eq_foldl]
  · intro α0 α1 α2 β γ fs l0 l1 l2 tail x0 x1 x2
    simp [canForwardSeq, applySeq_eq_foldl]
  · intro α γ δ th fs tc x0 x1
    simp [hmpnnForwardSeq, applySeq_eq_foldl]

/-- If every element of every block satisfies `p`, so does every element
of the concatenation of the blocks. -/
theorem all_flatMap_of_all {A B : Type} (p : B → Bool) (f : A → List B)
    (h : ∀ a, (f a).all p = true) (l : List A) :
    (l.flatMap f).all p = true := by
  induction l with
  | nil => rfl
  | cons a t ih => simp only [List.flatMap_cons, List.all_append, ih,
      h a, Bool.and_self]

/-- A forward body that never assigns a field of `self` leaves the
model's fields unchanged. -/
theorem fields_preserved {V : Type} (l : List (FwdStep V)) :
    ∀ s : PyStore V, l.all (fun st => !st.writesField) = true →
      (runSteps l s).fields = s.fields := by
  induction l with
  | nil => intro s _; rfl
  | cons st t ih =>
      intro s h
      simp only [List.all_cons, Bool.and_eq_true] at h
      cases st with
      | readField i =>
          simpa [runSteps, FwdStep.run] using ih _ h.2
      | setLocal i f =>
          have := ih ({ s with locals := s.locals.set i (f s) }) h.2
          simpa [runSteps, FwdStep.run] using this
      | setField i f =>
          exact absurd h.1 (by simp [FwdStep.writesField])

/-- A forward body with no field assignment is stateless: the model's
fields survive the call, and a second call made on the post-call model
state with the same input locals produces the same result store. -/
theorem stateless_of_no_writes {V : Type} (l : List (FwdStep V))
    (h : l.all (fun st => !st.writesField) = true) (s : PyStore V) :
    (runSteps l s).fields = s.fields ∧
      runSteps l { fields := (runSteps l s).fields, locals := s.locals } =
        runSteps l s := by
  have hf := fields_preserved l s h
  exact ⟨hf, by rw [hf]⟩

/-- Claim C3: the forward passes of all five models are stateless.  The
bodies of `SCN2.forward`, `HMPNN.forward`, `SCoNeNN.forward`,
`AMPSSCA.forward` and `CAN.forward` contain no assignment to a field of
`self` (only reads of `self` and rebindings of locals), so a forward
call leaves the model's stored state unchanged, and a second forward
call made on the resulting model state with the same inputs produces
exactly the same result store as the first. -/
theorem C3_forward_stateless :
    ∀ (V : Type) (g : Nat → PyStore V → V) (n : Nat) (s : PyStore V),
      (scn2ForwardSteps g n).all (fun st => !st.writesField) = true ∧
      (runSteps (scn2ForwardSteps g n) s).fields = s.fields ∧
      runSteps (scn2ForwardSteps g n)
          { fields := (runSteps (scn2ForwardSteps g n) s).fields,
            locals := s.locals } =
        runSteps (scn2ForwardSteps g n) s ∧
      (hmpnnForwardSteps g n).all (fun st => !st.writesField) = true ∧
      (runSteps (hmpnnForwardSteps g n) s).fields = s.fields ∧
      runSteps (hmpnnForwardSteps g n)
          { fields := (runSteps (hmpnnForwardSteps g n) s).fields,
            locals := s.locals } =
        runSteps (hmpnnForwardSteps g n) s ∧
      (sconeNNForwardSteps g n).all (fun st => !st.writesField) = true ∧
      (runSteps (sconeNNForwardSteps g n) s).fields = s.fields ∧
      runSteps (sconeNNForwardSteps g n)
          { fields := (runSteps (sconeNNForwardSteps g n) s).fields,
            locals := s.locals } =
        runSteps (sconeNNForwardSteps g n) s ∧
      (ampsscaForwardSteps g n).all (fun st => !st.writesField) = true ∧
      (runSteps (ampsscaForwardSteps g n) s).fields = s.fields ∧
      runSteps (ampsscaForwardSteps g n)
          { fields := (runSteps (ampsscaForwardSteps g n) s).fields,
            locals := s.locals } =
        runSteps (ampsscaForwardSteps g n) s ∧
      (canForwardSteps g n).all (fun st => !st.writesField) = true ∧
      (runSteps (canForwardSteps g n) s).fields = s.fields ∧
      runSteps (canForwardSteps g n)
          { fields := (runSteps (canForwardSteps g n) s).fields,
            locals := s.locals } =
        runSteps (canForwardSteps g n) s := by
  intro V g n s
  have hall1 : (scn2ForwardSteps g n).all (fun st => !st.writesField)
      = true := by
    simp only [scn2ForwardSteps, List.all_append, Bool.and_eq_true]
    refine ⟨?_, ?_⟩
    · apply all_flatMap_of_all
      intro a
      rfl
    · rfl
  have hall2 : (hmpnnForwardSteps g n).all (fun st => !st.writesField)
      = true := by
    simp only [hmpnnForwardSteps, List.all_append, Bool.and_eq_true]
    refine ⟨⟨?_, ?_⟩, ?_⟩
    · rfl
    · apply all_flatMap_of_all
      intro a
      rfl
    · rfl
  have hall3 : (sconeNNForwardSteps g n).all (fun st => !st.writesField)
      = true := by
    simp only [sconeNNForwardSteps, List.all_append, Bool.and_eq_true]
    refine ⟨?_, ?_⟩
    · apply all_flatMap_of_all
      intro a
      rfl
    · rfl
  have hall4 : (ampsscaForwardSteps g n).all (fun st => !st.writesField)
      = true := by
    simp only [ampsscaForwardSteps, List.all_append, Bool.and_eq_true]
    refine ⟨⟨?_, ?_⟩, ?_⟩
    · rfl
    · apply all_flatMap_of_all
      intro a
      rfl
    · rfl
  have hall5 : (canForwardSteps g n).all (fun st => !st.writesField)
      = true := by
    simp only [canForwardSteps, List.all_append, Bool.and_eq_true]
    refine ⟨?_, ?_⟩
    · apply all_flatMap_of_all
      intro a
      rfl
    · rfl
  have hs1 := stateless_of_no_writes (scn2ForwardSteps g n) hall1 s
  have hs2 := stateless_of_no_writes (hmpnnForwardSteps g n) hall2 s
  have hs3 := stateless_of_no_writes (sconeNNForwardSteps g n) hall3 s
  have hs4 := stateless_of_no_writes (ampsscaForwardSteps g n) hall4 s
  have hs5 := stateless_of_no_writes (canForwardSteps g n) hall5 s
  exact ⟨hall1, hs1.1, hs1.2, hall2, hs2.1, hs2.2, hall3, hs3.1, hs3.2,
    hall4, hs4.1, hs4.2, hall5, hs5.1, hs5.2⟩

/-- Claim C4: because `SCoNeNN.__init__` and `CAN.__init__` store the
message-passing layers in a plain Python list (not a
`torch.nn.ModuleList`), `model.parameters()` yields only the final
linear layers' parameters; the optimizer built over `model.parameters()`
therefore leaves the message-passing layers' parameters unchanged at
every step, and only the final linear layers are trained. -/
theorem C4_unregistered_layer_parameters :
    ∀ (P : Type) (u : P → P) (lp lin l0 l1 l2 : List P),
      collectParams (sconeNNAttrs lp lin) = lin ∧
      collectParams (canAttrs lp l0 l1 l2) = l0 ++ (l1 ++ l2) ∧
      plainParams (sconeNNAttrs lp lin) = lp ∧
      plainParams (canAttrs lp l0 l1 l2) = lp ∧
      (∀ attrs : List (ModuleAttr P),
        plainParams (optimizerStep u attrs) = plainParams attrs) ∧
      plainParams (optimizerStep u (sconeNNAttrs lp lin)) = lp ∧
      plainParams (optimizerStep u (canAttrs lp l0 l1 l2)) = lp := by
  intro P u lp lin l0 l1 l2
  have hgen : ∀ attrs : List (ModuleAttr P),
      plainParams (optimizerStep u attrs) = plainParams attrs := by
    intro attrs
    induction attrs with
    | nil => rfl
    | cons a t ih =>
        cases a with
        | submodule ps => simpa [optimizerStep, plainParams] using ih
        | plainValue ps => simpa [optimizerStep, plainParams] using ih
  refine ⟨?_, ?_, ?_, ?_, hgen, ?_, ?_⟩
  · simp [collectParams, sconeNNAttrs]
  · simp [collectParams, canAttrs]
  · simp [plainParams, sconeNNAttrs]
  · simp [plainParams, canAttrs]
  · rw [hgen]; simp [plainParams, sconeNNAttrs]
  · rw [hgen]; simp [plainParams, canAttrs]

/-- Splitting a script run at a concatenation: the second half runs only
if the first half succeeded. -/
theorem runStmts_append (o : Nat → Option PyError)
    (l1 l2 : List NotebookStmt) :
    runStmts o (l1 ++ l2) =
      match runStmts o l1 with
      | Except.error e => Except.error e
      | Except.ok _ => runStmts o l2 := by
  induction l1 with
  | nil => rfl
  | cons s t ih =>
      cases s with
      | plain i =>
          cases h : o i with
          | none => simp [runStmts, h, ih]
          | some e => simp [runStmts, h]
      | tryHandler b hd => simpa [runStmts] using ih
      | defErrorType i => simpa [runStmts] using ih

/-- A script of plain statements in which the library raises no error
runs to completion. -/
theorem runStmts_ok_of_none (o : Nat → Option PyError) :
    ∀ n : Nat, (∀ j, j < n → o j = none) →
      runStmts o (mkScript n) = Except.ok () := by
  intro n
  induction n with
  | zero => intro _; rfl
  | succ m ih =>
      intro h
      have hm : mkScript (m + 1) = mkScript m ++ [NotebookStmt.plain m] := by
        simp [mkScript, List.range_succ]
      rw [hm, runStmts_append, ih (fun j hj => h j (Nat.lt_succ_of_lt hj))]
      simp [runStmts, h m (Nat.lt_succ_self m)]

/-- Claim C6: no notebook defines a custom error type or installs an
exception handler (all five scripts consist of plain statements only),
and whenever the numeric library raises an error in some cell — all
earlier cells having succeeded — that error propagates uncaught to the
top level and terminates the run. -/
theorem C6_uncaught_error_propagation :
    ∀ (outcome : Nat → Option PyError) (n k : Nat) (e : PyError),
      (hasHandler sconeScript = false ∧
        definesErrorType sconeScript = false) ∧
      (hasHandler scn2Script = false ∧
        definesErrorType scn2Script = false) ∧
      (hasHandler ampsscaScript = false ∧
        definesErrorType ampsscaScript = false) ∧
      (hasHandler canScript = false ∧
        definesErrorType canScript = false) ∧
      (hasHandler hmpnnScript = false ∧
        definesErrorType hmpnnScript = false) ∧
      (k < n → (∀ j, j < k → outcome j = none) → outcome k = some e →
        runStmts outcome (mkScript n) = Except.error e) := by
  intro outcome n k e
  refine ⟨by decide, by decide, by decide, by decide, by decide, ?_⟩
  intro hk hnone hfail
  induction n with
  | zero => omega
  | succ m ih =>
      have hm : mkScript (m + 1) = mkScript m ++ [NotebookStmt.plain m] := by
        simp [mkScript, List.range_succ]
      rcases Nat.lt_succ_iff_lt_or_eq.mp hk with hlt | heq
      · rw [hm, runStmts_append, ih hlt]
      · subst heq
        rw [hm, runStmts_append, runStmts_ok_of_none outcome k hnone]
        simp [runStmts, hfail]

/-- Witness for C6: in the SCoNe script (10 plain cells), if the library
raises a shape mismatch in cell 3 and succeeds in cells 0–2, the whole
run terminates with that very error. -/
theorem C6_witness :
    (3 < 10 ∧ (∀ j, j < 3 → failAtThree j = none) ∧
      failAtThree 3 = some PyError.shapeMismatch) ∧
    runStmts failAtThree sconeScript = Except.error PyError.shapeMismatch :=
  ⟨⟨by decide, by decide, by decide⟩,
    (C6_uncaught_error_propagation failAtThree 10 3
      PyError.shapeMismatch).2.2.2.2.2 (by decide) (by decide) (by decide)⟩

/-- A run whose cells never write to disk leaves the on-disk state
exactly as it found it. -/
theorem runDisk_id_of_no_persist (ops : List NotebookOp)
    (h : ops.all (fun op => !op.persistsState) = true) :
    ∀ d : List Nat, runDisk ops d = d := by
  induction ops with
  | nil => intro d; rfl
  | cons op t ih =>
      intro d
      simp only [List.all_cons, Bool.and_eq_true] at h
      cases op with
      | diskWrite p => exact absurd h.1 (by simp [NotebookOp.persistsState])
      | defineFileFormat =>
          exact absurd h.1 (by simp [NotebookOp.persistsState])
      | setup => simpa [runDisk, opDisk] using ih h.2 d
      | datasetLoad => simpa [runDisk, opDisk] using ih h.2 d
      | tensorCompute => simpa [runDisk, opDisk] using ih h.2 d
      | display => simpa [runDisk, opDisk] using ih h.2 d
      | classDef => simpa [runDisk, opDisk] using ih h.2 d
      | modelCreate => simpa [runDisk, opDisk] using ih h.2 d
      | trainEvalLoop => simpa [runDisk, opDisk] using ih h.2 d
      | evalRun => simpa [runDisk, opDisk] using ih h.2 d

/-- Claim C7: no cell of any notebook writes data to disk or defines a
file format of its own — every manipulated entity is an in-memory value
of the run — and consequently each notebook run leaves the on-disk state
unchanged, whatever it was. -/
theorem C7_no_persistent_state :
    ∀ d : List Nat,
      sconeOps.all (fun op => !op.persistsState) = true ∧
      scn2Ops.all (fun op => !op.persistsState) = true ∧
      ampsscaOps.all (fun op => !op.persistsState) = true ∧
      canOps.all (fun op => !op.persistsState) = true ∧
      hmpnnOps.all (fun op => !op.persistsState) = true ∧
      runDisk sconeOps d = d ∧ runDisk scn2Ops d = d ∧
      runDisk ampsscaOps d = d ∧ runDisk canOps d = d ∧
      runDisk hmpnnOps d = d := by
  intro d
  refine ⟨by decide, by decide, by decide, by decide, by decide,
    runDisk_id_of_no_persist _ (by decide) d,
    runDisk_id_of_no_persist _ (by decide) d,
    runDisk_id_of_no_persist _ (by decide) d,
    runDisk_id_of_no_persist _ (by decide) d,
    runDisk_id_of_no_persist _ (by decide) d⟩

/-- Shape of a product against a transposed factor: one row per row of
`a`, one column per row of `bt`. -/
theorem mulT_shape {α : Type} [Field α] (a bt : Mat α) :
    (mulT a bt).length = a.length ∧
      ∀ row ∈ mulT a bt, row.length = bt.length := by
  constructor
  · simp [mulT]
  · intro row hrow
    rcases List.mem_map.mp hrow with ⟨r, _, hr⟩
    simp [← hr]

/-- Shape of the transpose: `c` rows, one column per row of `m`. -/
theorem transposeN_shape {α : Type} [Field α] (c : Nat) (m : Mat α) :
    (transposeN c m).length = c ∧
      ∀ row ∈ transposeN c m, row.length = m.length := by
  constructor
  · simp [transposeN]
  · intro row hrow
    rcases List.mem_map.mp hrow with ⟨j, _, hj⟩
    simp [← hj]

/-- Entrywise addition of two matrices of equal shape keeps the
shape. -/
theorem matAdd_wf {α : Type} [Field α] :
    ∀ (a b : Mat α) (r c : Nat), wellFormed r c a → wellFormed r c b →
      wellFormed r c (matAdd a b) := by
  intro a
  induction a with
  | nil =>
      intro b r c ha _
      exact ⟨by simpa [matAdd] using ha.1, by simp [matAdd]⟩
  | cons ra ta ih =>
      intro b r c ha hb
      cases b with
      | nil =>
          exfalso
          have h1 := ha.1
          have h2 := hb.1
          simp at h1 h2
          omega
      | cons rb tb =>
          have hta : wellFormed (ta.length) c ta :=
            ⟨rfl, fun row hrow => ha.2 row (List.mem_cons_of_mem _ hrow)⟩
          have htb : wellFormed (ta.length) c tb := by
            refine ⟨?_, fun row hrow => hb.2 row (List.mem_cons_of_mem _ hrow)⟩
            have h1 := ha.1
            have h2 := hb.1
            simp at h1 h2
            omega
          have hrec := ih tb (ta.length) c hta htb
          constructor
          · have hcons : matAdd (ra :: ta) (rb :: tb) =
                List.zipWith (fun x y => x + y) ra rb :: matAdd ta tb :=
              rfl
            rw [hcons, List.length_cons, hrec.1]
            simpa using ha.1
          · intro row hrow
            rcases List.mem_cons.mp hrow with hhead | htail
            · have hra := ha.2 ra (List.mem_cons_self _ _)
              have hrb := hb.2 rb (List.mem_cons_self _ _)
              subst hhead
              simp [matAdd, hra, hrb]
            · exact hrec.2 row htail

/-- `scaleEntries` keeps the row length. -/
theorem scaleEntries_length {α : Type} [Field α] (d : Nat → α) (i : Nat) :
    ∀ (j : Nat) (row : List α),
      (scaleEntries d i j row).length = row.length := by
  intro j row
  induction row generalizing j with
  | nil => rfl
  | cons x xs ih => simp [scaleEntries, ih]

/-- The degree rescaling keeps the matrix shape. -/
theorem scaleRows_wf {α : Type} [Field α] (d : Nat → α) :
    ∀ (m : Mat α) (i r c : Nat), wellFormed r c m →
      wellFormed r c (scaleRows d i m) := by
  intro m
  induction m with
  | nil => intro i r c hm; simpa [scaleRows] using hm
  | cons row rest ih =>
      intro i r c hm
      have hrest : wellFormed rest.length c rest :=
        ⟨rfl, fun rw hrw => hm.2 rw (List.mem_cons_of_mem _ hrw)⟩
      have hrec := ih (i + 1) rest.length c hrest
      constructor
      · have h1 := hm.1
        simp [scaleRows] at h1 ⊢
        simpa using hrec.1 ▸ h1
      · intro rw hrw
        rcases List.mem_cons.mp hrw with hhead | htail
        · subst hhead
          rw [scaleEntries_length]
          exact hm.2 row (List.mem_cons_self _ _)
        · exact hrec.2 rw htail

/-- Claim C8: every Laplacian built in the notebooks at rank `r` — up,
down or normalized — is a square matrix of side the number of rank-`r`
cells: given the incidence matrices `B_r` of shape `[n_{r-1}, n_r]` and
`B_{r+1}` of shape `[n_r, n_{r+1}]`, the up, down and normalized
Laplacians at rank `r` all have shape `[n_r, n_r]`; with `r = 1` and
`n_1` the number of edges this is the `[n_edges, n_edges]` shape the
notebooks print. -/
theorem C8_laplacians_square :
    ∀ (nrm1 nr nrp1 : Nat) (b bNext : Mat ℚ) (d : Nat → ℚ),
      wellFormed nrm1 nr b → wellFormed nr nrp1 bNext →
      wellFormed nr nr (upLaplacian bNext) ∧
      wellFormed nr nr (downLaplacian nr b) ∧
      wellFormed nr nr (normalizedLaplacian nr d b bNext) := by
  intro nrm1 nr nrp1 b bNext d _ hbNext
  have hup : wellFormed nr nr (upLaplacian bNext) := by
    have h := mulT_shape bNext bNext
    exact ⟨by rw [upLaplacian, h.1, hbNext.1],
      fun row hrow => by rw [h.2 row hrow, hbNext.1]⟩
  have hdown : wellFormed nr nr (downLaplacian nr b) := by
    have ht := transposeN_shape nr b
    have h := mulT_shape (transposeN nr b) (transposeN nr b)
    exact ⟨by rw [downLaplacian, h.1, ht.1],
      fun row hrow => by rw [h.2 row hrow, ht.1]⟩
  refine ⟨hup, hdown, ?_⟩
  exact scaleRows_wf d _ 0 nr nr
    (matAdd_wf (downLaplacian nr b) (upLaplacian bNext) nr nr hdown hup)

/-- Witness for C8: for a 3-node, 3-edge, 1-face triangle complex (the
incidence matrices have shapes `[3, 3]` and `[3, 1]`), the rank-1 up,
down and normalized Laplacians all have shape `[3, 3]` —
`[n_edges, n_edges]`. -/
theorem C8_witness :
    (wellFormed 3 3 ([[1, -1, 0], [1, 0, -1], [0, 1, -1]] : Mat ℚ) ∧
      wellFormed 3 1 ([[1], [-1], [1]] : Mat ℚ)) ∧
    (wellFormed 3 3 (upLaplacian ([[1], [-1], [1]] : Mat ℚ)) ∧
      wellFormed 3 3
        (downLaplacian 3 ([[1, -1, 0], [1, 0, -1], [0, 1, -1]] : Mat ℚ)) ∧
      wellFormed 3 3
        (normalizedLaplacian 3 (fun _ => 1)
          ([[1, -1, 0], [1, 0, -1], [0, 1, -1]] : Mat ℚ)
          ([[1], [-1], [1]] : Mat ℚ))) :=
  ⟨⟨⟨by decide, by decide⟩, ⟨by decide, by decide⟩⟩,
    C8_laplacians_square 3 3 1 _ _ (fun _ => 1)
      ⟨by decide, by decide⟩ ⟨by decide, by decide⟩⟩

/-- Row count of a matrix product with explicit column count. -/
theorem matMul_length {α : Type} [Field α] (k : Nat) (a b : Mat α) :
    (matMul k a b).length = a.length := by
  simp [matMul, mulT]

/-- Row count after an entrywise function. -/
theorem entrywise_length {α : Type} (f : α → α) (m : Mat α) :
    (entrywise f m).length = m.length := by
  simp [entrywise]

/-- Row count of an entrywise sum. -/
theorem matAdd_length {α : Type} [Field α] (a b : Mat α) :
    (matAdd a b).length = min a.length b.length := by
  simp [matAdd]

/-- One SCoNe layer keeps one row per edge: with the two Laplacians and
the identity matrix all of side `n`, the layer output has `n` rows. -/
theorem sconeLayer_length {α : Type} [Field α] (act : α → α) (c n : Nat)
    (upLap downLap iden t1 t2 t3 h : Mat α) (hup : upLap.length = n)
    (hdown : downLap.length = n) (hiden : iden.length = n) :
    (sconeLayer act c upLap downLap iden t1 t2 t3 h).length = n := by
  simp [sconeLayer, entrywise_length, matAdd_length, matMul_length, hup,
    hdown, hiden]

/-- The SCoNe layer loop keeps one row per edge. -/
theorem sconeLayers_length {α : Type} [Field α] (act : α → α) (c n : Nat)
    (upLap downLap iden : Mat α) (hup : upLap.length = n)
    (hdown : downLap.length = n) (hiden : iden.length = n) :
    ∀ (ws : List (Mat α × Mat α × Mat α)) (h : Mat α), h.length = n →
      (sconeLayers act c upLap downLap iden ws h).length = n := by
  intro ws
  induction ws with
  | nil => intro h hh; simpa [sconeLayers] using hh
  | cons w ws ih =>
      intro h _
      exact ih _ (sconeLayer_length act c n upLap downLap iden w.1 w.2.1
        w.2.2 h hup hdown hiden)

/-- `torch.softmax` on a two-entry row of reals: explicitly the pair of
normalized exponentials, summing to `1`, each entry in `[0, 1]`. -/
theorem softmaxPair (a b : ℝ) :
    softmaxRowG Real.exp [a, b] =
      [Real.exp a / (Real.exp a + Real.exp b),
       Real.exp b / (Real.exp a + Real.exp b)] ∧
    (softmaxRowG Real.exp [a, b]).sum = 1 ∧
    ∀ v ∈ softmaxRowG Real.exp [a, b], 0 ≤ v ∧ v ≤ 1 := by
  have hS : 0 < Real.exp a + Real.exp b :=
    add_pos (Real.exp_pos a) (Real.exp_pos b)
  have heq : softmaxRowG Real.exp [a, b] =
      [Real.exp a / (Real.exp a + Real.exp b),
       Real.exp b / (Real.exp a + Real.exp b)] := by
    simp [softmaxRowG]
  refine ⟨heq, ?_, ?_⟩
  · rw [heq]
    simp only [List.sum_cons, List.sum_nil, add_zero, div_add_div_same]
    exact div_self hS.ne'
  · rw [heq]
    intro v hv
    have hcases : v = Real.exp a / (Real.exp a + Real.exp b) ∨
        v = Real.exp b / (Real.exp a + Real.exp b) := by
      simpa using hv
    rcases hcases with hva | hvb
    · subst hva
      refine ⟨div_nonneg (Real.exp_pos a).le hS.le, ?_⟩
      exact (div_le_one hS).mpr (le_add_of_nonneg_right (Real.exp_pos b).le)
    · subst hvb
      refine ⟨div_nonneg (Real.exp_pos b).le hS.le, ?_⟩
      exact (div_le_one hS).mpr (le_add_of_nonneg_left (Real.exp_pos a).le)

/-- Claim C9: for every input whose edge-feature matrix, Laplacians and
identity matrix have `n = n_edges` rows, `SCoNeNN.forward` returns one
row per edge, each row of length 2, with entries in `[0, 1]` summing to
`1` — a softmax probability distribution per edge (not hard one-hot
labels on nodes, as its docstring says). -/
theorem C9_scone_forward_softmax :
    ∀ (act : ℝ → ℝ) (c n : Nat) (ws : List (Mat ℝ × Mat ℝ × Mat ℝ))
      (upLap downLap iden : Mat ℝ) (w1 w2 : List ℝ) (b1 b2 : ℝ)
      (x1 : Mat ℝ),
      upLap.length = n → downLap.length = n → iden.length = n →
      x1.length = n →
      (sconeNNforward Real.exp act c ws upLap downLap iden w1 w2 b1 b2
          x1).length = n ∧
      ∀ row ∈ sconeNNforward Real.exp act c ws upLap downLap iden w1 w2
          b1 b2 x1,
        row.length = 2 ∧ row.sum = 1 ∧ ∀ v ∈ row, 0 ≤ v ∧ v ≤ 1 := by
  intro act c n ws upLap downLap iden w1 w2 b1 b2 x1 hup hdown hiden hx
  constructor
  · simp only [sconeNNforward, linear2, List.length_map]
    exact sconeLayers_length act c n upLap downLap iden hup hdown hiden
      ws x1 hx
  · intro row hrow
    simp only [sconeNNforward] at hrow
    rcases List.mem_map.mp hrow with ⟨r, hr, hrow'⟩
    simp only [linear2] at hr
    rcases List.mem_map.mp hr with ⟨s, _, hs⟩
    set A := dotProd s w1 + b1 with hA
    set B := dotProd s w2 + b2 with hB
    have hr2 : r = [A, B] := hs.symm
    subst hr2
    have hsp := softmaxPair A B
    refine ⟨?_, ?_, ?_⟩
    · rw [← hrow', hsp.1]
      rfl
    · rw [← hrow']
      exact hsp.2.1
    · rw [← hrow']
      exact hsp.2.2

/-- Witness for C9: at a one-edge, one-channel input with zero weights
and identity activation, the hypotheses of the forward-shape theorem
hold and its conclusion follows. -/
theorem C9_witness :
    (([[(0 : ℝ)]] : Mat ℝ).length = 1 ∧
      ([[(0 : ℝ)]] : Mat ℝ).length = 1 ∧
      ([[(0 : ℝ)]] : Mat ℝ).length = 1 ∧
      ([[(0 : ℝ)]] : Mat ℝ).length = 1) ∧
    ((sconeNNforward Real.exp (fun x => x) 1 [] [[0]] [[0]] [[0]] [0]
        [0] 0 0 [[0]]).length = 1 ∧
      ∀ row ∈ sconeNNforward Real.exp (fun x => x) 1 [] [[0]] [[0]]
          [[0]] [0] [0] 0 0 [[0]],
        row.length = 2 ∧ row.sum = 1 ∧ ∀ v ∈ row, 0 ≤ v ∧ v ≤ 1) :=
  ⟨⟨rfl, rfl, rfl, rfl⟩,
    C9_scone_forward_softmax (fun x => x) 1 1 [] [[0]] [[0]] [[0]] [0]
      [0] 0 0 [[0]] rfl rfl rfl rfl⟩

/-- NaN-fixing really removes every NaN. -/
theorem zeroNaN_not_nan (v : FVal) : (zeroNaN v).isNaN = false := by
  cases v <;> simp [zeroNaN, FVal.isNaN]

/-- A NaN-fixed mean vector contains no NaN. -/
theorem fixedMean_not_nan (c : Nat) (x : List (List FVal)) :
    ∀ v ∈ fixedMean c x, v.isNaN = false := by
  intro v hv
  rcases List.mem_map.mp hv with ⟨w, _, hw⟩
  rw [← hw]
  exact zeroNaN_not_nan w

/-- The sum of two NaN-free vectors is NaN-free. -/
theorem addVec_not_nan :
    ∀ (u w : List FVal), (∀ a ∈ u, a.isNaN = false) →
      (∀ b ∈ w, b.isNaN = false) →
      ∀ v ∈ addVec u w, v.isNaN = false := by
  intro u
  induction u with
  | nil => intro w _ _ v hv; simp [addVec] at hv
  | cons a t ih =>
      intro w hu hw v hv
      cases w with
      | nil => simp [addVec] at hv
      | cons b s =>
          simp only [addVec, List.zipWith_cons_cons] at hv
          rcases List.mem_cons.mp hv with hhead | htail
          · subst hhead
            have ha := hu a (List.mem_cons_self _ _)
            have hb := hw b (List.mem_cons_self _ _)
            cases a with
            | nan => exact absurd ha (by simp [FVal.isNaN])
            | val qa =>
                cases b with
                | nan => exact absurd hb (by simp [FVal.isNaN])
                | val qb => simp [FVal.add, FVal.isNaN]
          · exact ih s (fun x hx => hu x (List.mem_cons_of_mem _ hx))
              (fun x hx => hw x (List.mem_cons_of_mem _ hx)) v htail

/-- The NaN-fixed mean vector has one entry per channel. -/
theorem fixedMean_length (c : Nat) (x : List (List FVal)) :
    (fixedMean c x).length = c := by
  simp [fixedMean, zeroNaNs, nanmeanDim0]

/-- The NaN-fixed mean of an empty cell dimension is the zero vector:
`torch.nanmean` of an empty stack is NaN in every channel, and the
in-place fix turns every NaN into `0`. -/
theorem fixedMean_empty (c : Nat) :
    fixedMean c ([] : List (List FVal)) =
      List.replicate c (FVal.val 0) := by
  have h : fixedMean c ([] : List (List FVal)) =
      (List.range c).map (fun _ => FVal.val 0) := by
    simp [fixedMean, zeroNaNs, nanmeanDim0, nanmeanCol, zeroNaN,
      FVal.isNaN]
  rw [h, range_map_const]

/-- Adding the zero vector on the left is the identity on vectors of
matching length (also on NaN entries, which stay NaN). -/
theorem addVec_zero_left :
    ∀ (c : Nat) (v : List FVal), v.length = c →
      addVec (List.replicate c (FVal.val 0)) v = v := by
  intro c
  induction c with
  | zero =>
      intro v hv
      rw [List.length_eq_zero.mp hv]
      rfl
  | succ m ih =>
      intro v hv
      cases v with
      | nil => simp at hv
      | cons a t =>
          have ht : t.length = m := by simpa using hv
          cases a with
          | nan =>
              simp [addVec, List.replicate_succ, FVal.add]
              exact ih t ht
          | val q =>
              simp [addVec, List.replicate_succ, FVal.add]
              exact ih t ht

/-- Adding the zero vector on the right is the identity on vectors of
matching length. -/
theorem addVec_zero_right :
    ∀ (c : Nat) (v : List FVal), v.length = c →
      addVec v (List.replicate c (FVal.val 0)) = v := by
  intro c
  induction c with
  | zero =>
      intro v hv
      rw [List.length_eq_zero.mp hv]
      rfl
  | succ m ih =>
      intro v hv
      cases v with
      | nil => simp at hv
      | cons a t =>
          have ht : t.length = m := by simpa using hv
          cases a with
          | nan =>
              simp [addVec, List.replicate_succ, FVal.add]
              exact ih t ht
          | val q =>
              simp [addVec, List.replicate_succ, FVal.add]
              exact ih t ht

/-- Claim C10: in the forward tails of SCN2, AMPSSCA and CAN every NaN
entry of a per-dimension cell-feature mean is replaced by `0` before the
three means are summed, so the NaN-fixed mean vectors and the summed
model outputs contain no NaN, and an empty cell dimension contributes
the zero vector: dropping it leaves exactly the sum of the other two
NaN-fixed means. -/
theorem C10_empty_dimension_contributes_zero :
    ∀ (c : Nat) (x0 x1 x2 : List (List FVal)),
      (∀ v ∈ fixedMean c x2, v.isNaN = false) ∧
      (∀ v ∈ scn2MeanTail c x0 x1 x2, v.isNaN = false) ∧
      (∀ v ∈ ampsscaMeanTail c x0 x1 x2, v.isNaN = false) ∧
      (∀ v ∈ canMeanTail c x0 x1 x2, v.isNaN = false) ∧
      fixedMean c ([] : List (List FVal)) =
        List.replicate c (FVal.val 0) ∧
      scn2MeanTail c x0 x1 [] =
        addVec (fixedMean c x1) (fixedMean c x0) ∧
      ampsscaMeanTail c x0 x1 [] =
        addVec (fixedMean c x0) (fixedMean c x1) ∧
      canMeanTail c x0 x1 [] =
        addVec (fixedMean c x1) (fixedMean c x0) := by
  intro c x0 x1 x2
  have hfm : ∀ y : List (List FVal), ∀ v ∈ fixedMean c y,
      v.isNaN = false := fun y => fixedMean_not_nan c y
  have htail : ∀ ya yb yc : List (List FVal),
      ∀ v ∈ addVec (addVec (fixedMean c ya) (fixedMean c yb))
          (fixedMean c yc), v.isNaN = false := by
    intro ya yb yc
    exact addVec_not_nan _ _
      (addVec_not_nan _ _ (hfm ya) (hfm yb)) (hfm yc)
  have hlen : (addVec (fixedMean c x1) (fixedMean c x0)).length = c := by
    simp [addVec, fixedMean_length]
  have hlen' : (addVec (fixedMean c x0) (fixedMean c x1)).length = c := by
    simp [addVec, fixedMean_length]
  refine ⟨hfm x2, htail x2 x1 x0, htail x0 x1 x2, htail x1 x0 x2,
    fixedMean_empty c, ?_, ?_, ?_⟩
  · rw [scn2MeanTail, fixedMean_empty,
      addVec_zero_left c (fixedMean c x1) (fixedMean_length c x1)]
  · rw [ampsscaMeanTail, fixedMean_empty]
    exact addVec_zero_right c _ hlen'
  · rw [canMeanTail, fixedMean_empty]
    exact addVec_zero_right c _ hlen

end SCNN
